import Mathlib

/-!
Shallow embedding of the mount-exporter resilient probe layer: the circuit
breaker and retry engine (`reliability/circuit_breaker.go`, `reliability/retry.go`),
the findmnt probe wrapper (`system/findmnt.go`), and the metrics collection
loop (`metrics/collector.go`), together with theorems about them.

Modelling conventions:
* wall-clock instants and durations are integer nanoseconds (`Int`);
  `time.Since(t)` at instant `now` is `now - t`, and the Go zero `time.Time`
  is the instant `0`;
* Go `error` values are their message strings (`Option String`, `none` = nil);
* an operation passed to `Execute` or retried by `Do` is a pure state
  transformer `σ → Option String × σ` (the Go closures mutate a result
  record through a pointer); successive invocations of one closure are
  indexed by invocation number;
* the float64 delay arithmetic of `calculateDelay` is modelled exactly over `ℚ`;
* asynchronous state-change observers and the wrapper's statistics counters
  have no effect on any modelled state and are omitted.
-/

namespace MountExporter

namespace Reliability

/-- `State` from `reliability/circuit_breaker.go` (`StateClosed`, `StateHalfOpen`, `StateOpen`). -/
inductive State where
  | stateClosed
  | stateHalfOpen
  | stateOpen
deriving DecidableEq, Repr

/-- The state-carrying fields of `CircuitBreaker` (`reliability/circuit_breaker.go`).
`mu` and `onStateChange` are omitted (the observer never touches breaker state). -/
structure CircuitBreaker where
  name : String := ""
  maxFailures : Nat
  resetTimeout : Int
  state : State
  failures : Nat
  lastFailTime : Int
deriving DecidableEq, Repr

namespace CircuitBreaker

/-- `setState`: updates `state` only when it differs (the Go code then fires the
asynchronous observer, which does not touch breaker state). -/
def setState (cb : CircuitBreaker) (newState : State) : CircuitBreaker :=
  if cb.state ≠ newState then { cb with state := newState } else cb

/-- `onSuccess`, evaluated at instant `now` (`time.Since(cb.lastFailTime)` = `now - cb.lastFailTime`). -/
def onSuccess (cb : CircuitBreaker) (now : Int) : CircuitBreaker :=
  let cb1 := { cb with failures := 0 }
  match cb1.state with
  | .stateClosed => cb1
  | .stateOpen =>
      if cb1.resetTimeout ≤ now - cb1.lastFailTime then cb1.setState .stateHalfOpen else cb1
  | .stateHalfOpen => cb1.setState .stateClosed

/-- `onFailure`, evaluated at instant `now` (`cb.lastFailTime = time.Now()`). -/
def onFailure (cb : CircuitBreaker) (now : Int) : CircuitBreaker :=
  let cb1 := { cb with failures := cb.failures + 1, lastFailTime := now }
  match cb1.state with
  | .stateClosed =>
      if cb1.maxFailures ≤ cb1.failures then cb1.setState .stateOpen else cb1
  | .stateHalfOpen => cb1.setState .stateOpen
  | .stateOpen => cb1

/-- `recordResult`: dispatches on whether the operation returned a nil error. -/
def recordResult (cb : CircuitBreaker) (now : Int) (success : Bool) : CircuitBreaker :=
  if success then cb.onSuccess now else cb.onFailure now

/-- `allowRequest` at instant `now`. The Go `default: return false` arm is
unreachable for the three-valued `State`. -/
def allowRequest (cb : CircuitBreaker) (now : Int) : Bool :=
  match cb.state with
  | .stateClosed => true
  | .stateOpen => decide (cb.resetTimeout ≤ now - cb.lastFailTime)
  | .stateHalfOpen => true

/-- `Execute`: rejects with the distinct `"circuit breaker is open"` error when
`allowRequest` is false (the operation is then not invoked and the breaker and
operation state are untouched); otherwise runs the operation once and records
the result. Returns (error, operation state, breaker). -/
def Execute {σ : Type} (cb : CircuitBreaker) (now : Int) (s : σ)
    (fn : σ → Option String × σ) : Option String × σ × CircuitBreaker :=
  if cb.allowRequest now then
    match fn s with
    | (none, s1) => (none, s1, cb.onSuccess now)
    | (some e, s1) => (some e, s1, cb.onFailure now)
  else
    (some "circuit breaker is open", s, cb)

/-- `Reset`: zero the counter, clear the last-failure timestamp, force `Closed`. -/
def Reset (cb : CircuitBreaker) : CircuitBreaker :=
  setState { cb with failures := 0, lastFailTime := 0 } .stateClosed

/-- Bool-valued test used by `IsOpen`. -/
def stateIsOpen : State → Bool
  | .stateOpen => true
  | _ => false

/-- `IsOpen`. -/
def IsOpen (cb : CircuitBreaker) : Bool := stateIsOpen cb.state

/-- `IsClosed`. -/
def IsClosed (cb : CircuitBreaker) : Bool :=
  match cb.state with
  | .stateClosed => true
  | _ => false

end CircuitBreaker

/-- `BackoffStrategy` from `reliability/retry.go`. -/
inductive BackoffStrategy where
  | linear
  | exponential
  | fixed
deriving DecidableEq, Repr

/-- `RetryConfig` (`RetryableErrors` is subsumed by the `shouldRetry` predicate,
exactly as in the Go code where `WithRetryableErrors` installs a predicate). -/
structure RetryConfig where
  maxAttempts : Nat
  initialDelay : ℚ
  maxDelay : ℚ
  multiplier : ℚ
  strategy : BackoffStrategy
  shouldRetry : String → Bool

/-- `calculateDelay` from `reliability/retry.go`, with the float64 arithmetic
modelled exactly over `ℚ`. `attempt` is the Go loop counter (the delay before
re-invocation number `attempt + 1`); natural subtraction agrees with the Go
`attempt - 1` for every `attempt ≥ 1`, which is the only way `Do` calls it. -/
def calculateDelay (cfg : RetryConfig) (attempt : Nat) : ℚ :=
  let delay : ℚ :=
    match cfg.strategy with
    | .linear => cfg.initialDelay * (attempt : ℚ)
    | .exponential => cfg.initialDelay * cfg.multiplier ^ (attempt - 1)
    | .fixed => cfg.initialDelay
  if cfg.maxDelay < delay then cfg.maxDelay else delay

/-- The error returned by `Do` on exhaustion:
`fmt.Errorf("max retry attempts (%d) exceeded, last error: %w", maxAttempts, lastErr)`. -/
def exhaustedMsg (maxAttempts : Nat) (lastErr : Option String) : String :=
  "max retry attempts (" ++ toString maxAttempts ++ ") exceeded, last error: " ++
    (match lastErr with
     | some e => e
     | none => "%!w(<nil>)")

/-- The loop body of `Retry.Do`. `attempt` is the Go loop counter, `fuel` is
`maxAttempts - attempt` (the number of loop iterations still permitted),
`cancel n` tells whether the cancellable context fires during the wait that
precedes iteration `n`, and `fn n` is the outcome of invocation number `n` of
the operation. Returns (error, final operation state, number of invocations
performed, number of inter-attempt waits performed). -/
def doGo {σ : Type} (sr : String → Bool) (maxAttempts : Nat) (cancel : Nat → Bool)
    (fn : Nat → σ → Option String × σ) :
    Nat → Nat → σ → Option String → Option String × σ × Nat × Nat
  | _, 0, s, lastErr => (some (exhaustedMsg maxAttempts lastErr), s, 0, 0)
  | attempt, fuel + 1, s, _lastErr =>
    if 0 < attempt ∧ cancel attempt = true then
      (some "retry cancelled: context canceled", s, 0, 0)
    else
      let w : Nat := if 0 < attempt then 1 else 0
      match fn attempt s with
      | (none, s1) => (none, s1, 1, w)
      | (some e, s1) =>
        if sr e = false then (some (exhaustedMsg maxAttempts (some e)), s1, 1, w)
        else if fuel = 0 then (some (exhaustedMsg maxAttempts (some e)), s1, 1, w)
        else
          let rest := doGo sr maxAttempts cancel fn (attempt + 1) fuel s1 (some e)
          (rest.1, rest.2.1, rest.2.2.1 + 1, rest.2.2.2 + w)

/-- `Retry.Do` from `reliability/retry.go`, instrumented with invocation and
wait counts. -/
def Do {σ : Type} (cfg : RetryConfig) (cancel : Nat → Bool)
    (fn : Nat → σ → Option String × σ) (s : σ) : Option String × σ × Nat × Nat :=
  doGo cfg.shouldRetry cfg.maxAttempts cancel fn 0 cfg.maxAttempts s none

/-- One step of the public mutating interface of a breaker: an `Execute` call
(at some instant, with some operation outcome) or a `Reset` call. -/
inductive CBOp where
  | exec (now : Int) (fnErr : Option String)
  | reset

/-- Apply one public operation to a breaker. -/
def applyOp (cb : CircuitBreaker) : CBOp → CircuitBreaker
  | .exec now fnErr => (cb.Execute now () (fun _ => (fnErr, ()))).2.2
  | .reset => cb.Reset

/-- The transition list asserted by the spec:
Closed→Open, Open→HalfOpen, HalfOpen→Closed, HalfOpen→Open. -/
def allowedTransition : State → State → Bool
  | .stateClosed, .stateOpen => true
  | .stateOpen, .stateHalfOpen => true
  | .stateHalfOpen, .stateClosed => true
  | .stateHalfOpen, .stateOpen => true
  | _, _ => false

/-- Run a sequence of failing `Execute` calls, each given as (instant, error message). -/
def execFailSeq (ps : List (Int × String)) (cb : CircuitBreaker) : CircuitBreaker :=
  ps.foldl (fun c p => (c.Execute p.1 () (fun _ => (some p.2, ()))).2.2) cb

end Reliability

namespace System

/-- Split a character list at every character satisfying `p`, keeping empty
segments (the semantics of Go `strings.Split` for a one-character separator
when `p` tests for that character). Never returns the empty list. -/
def splitGoP (p : Char → Bool) : List Char → List (List Char)
  | [] => [[]]
  | ch :: rest =>
    match splitGoP p rest with
    | [] => [[]]
    | cur :: tail => if p ch then [] :: cur :: tail else (ch :: cur) :: tail

/-- Go `strings.Split(s, string(c))`. -/
def splitOnChar (c : Char) (s : String) : List String :=
  (splitGoP (fun ch => ch = c) s.data).map fun l => String.mk l

/-- Leading-whitespace removal on a character list. -/
def trimLeftChars : List Char → List Char
  | [] => []
  | c :: rest => if c.isWhitespace then trimLeftChars rest else c :: rest

/-- Go `strings.TrimSpace`: drop leading and trailing whitespace (the exotic
Unicode space characters Go additionally strips never reach these claims). -/
def trimSpace (s : String) : String :=
  String.mk ((trimLeftChars (trimLeftChars s.data).reverse).reverse)

/-- `MountStatus` from `system/findmnt.go`. -/
inductive MountStatus where
  | unknown
  | mounted
  | notMounted
deriving DecidableEq, Repr

/-- `FindmntResult` from `system/findmnt.go`; the error is its message string. -/
structure FindmntResult where
  mountPoint : String := ""
  status : MountStatus := .unknown
  target : String := ""
  fsType : String := ""
  options : String := ""
  source : String := ""
  error : Option String := none
deriving DecidableEq, Repr

/-- The observable outcome of one spawn of the findmnt command: the bounded
sub-context expired, the command exited nonzero with an exit code, it failed
without an exit code, or it exited zero with the given standard output. -/
inductive CmdOutcome where
  | timedOut
  | exitError (code : Int)
  | execFailure (msg : String)
  | success (output : String)
deriving DecidableEq, Repr

/-- The body of the closure retried inside `executeFindmnt`
(`system/findmnt.go`): classify one command outcome and update the (pointer-
shared) result record. Scanning stops at the first output line; `strings.Split`
with separator `" "` is `splitOnChar ' '`; `strings.TrimSpace` is `trimSpace`.
The Go guard `len(fields) >= 1` can only take its positive branch because
`strings.Split` never returns an empty slice. -/
def findmntAttempt (outcome : CmdOutcome) (result : FindmntResult) :
    Option String × FindmntResult :=
  match outcome with
  | .timedOut => (some "findmnt command timed out", result)
  | .exitError code =>
      if code = 1 then (none, { result with status := .notMounted })
      else (some ("findmnt command failed: exit status " ++ toString code), result)
  | .execFailure msg => (some ("findmnt command failed: " ++ msg), result)
  | .success output =>
      if trimSpace output = "" then (none, { result with status := .notMounted })
      else
        let line := trimSpace ((splitOnChar '\n' output).headD "")
        if line = "" then (none, result)
        else
          match splitOnChar ' ' line with
          | [] => (none, result)
          | f0 :: _ =>
            let fields := splitOnChar ' ' line
            let r1 := { result with status := .mounted, target := f0 }
            let r2 := if 2 ≤ fields.length then { r1 with fsType := fields.getD 1 "" } else r1
            let r3 := if 3 ≤ fields.length then { r2 with options := fields.getD 2 "" } else r2
            let r4 := if 4 ≤ fields.length then
                        { r3 with source := " ".intercalate (fields.drop 3) }
                      else r3
            (none, r4)

/-- The retry policy installed by `NewFindmntWrapper`: 3 attempts, 100ms initial
delay, 5s max delay, exponential backoff with the default multiplier 2.0, and
the transient-error predicate (kept abstract as `sr`). -/
def findmntRetryConfig (sr : String → Bool) : Reliability.RetryConfig :=
  { maxAttempts := 3
    initialDelay := 100000000
    maxDelay := 5000000000
    multiplier := 2
    strategy := .exponential
    shouldRetry := sr }

/-- `executeFindmnt`: the retry loop around single command invocations, where
`cmds n` is the outcome of spawn number `n` within this call. -/
def executeFindmnt (cancel : Nat → Bool) (cmds : Nat → CmdOutcome) (sr : String → Bool)
    (result : FindmntResult) : Option String × FindmntResult × Nat × Nat :=
  Reliability.Do (findmntRetryConfig sr) cancel (fun i r => findmntAttempt (cmds i) r) result

/-- The message stored in the result when the breaker is open. -/
def circuitOpenResultMsg : String :=
  "circuit breaker is open - findmnt commands are temporarily disabled"

/-- `FindmntWrapper.CheckMountPoint` (`system/findmnt.go`), with the wrapper's
breaker passed explicitly and the statistics counters omitted. Returns the
probe result, the updated breaker, and the number of findmnt spawns performed. -/
def CheckMountPoint (now : Int) (cancel : Nat → Bool) (cmds : Nat → CmdOutcome)
    (sr : String → Bool) (cb : Reliability.CircuitBreaker) (mountPoint : String) :
    FindmntResult × Reliability.CircuitBreaker × Nat :=
  let result0 : FindmntResult := { mountPoint := mountPoint, status := .unknown }
  if cb.IsOpen then
    ({ result0 with error := some circuitOpenResultMsg, status := .unknown }, cb, 0)
  else
    let fn : FindmntResult × Nat → Option String × (FindmntResult × Nat) := fun p =>
      let out := executeFindmnt cancel cmds sr p.1
      (out.1, (out.2.1, out.2.2.1))
    match cb.Execute now (result0, 0) fn with
    | (none, (r, inv), cb1) => (r, cb1, inv)
    | (some e, (r, inv), cb1) =>
      if e = "circuit breaker is open" then
        ({ r with error := some circuitOpenResultMsg, status := .unknown }, cb1, inv)
      else
        ({ r with error := some e }, cb1, inv)

/-- The parameters of one `CheckMountPoint` call. -/
structure CheckCall where
  now : Int
  cancel : Nat → Bool
  cmds : Nat → CmdOutcome
  sr : String → Bool
  mountPoint : String

/-- Thread the wrapper's breaker through a sequence of `CheckMountPoint` calls. -/
def runChecks (calls : List CheckCall) (cb : Reliability.CircuitBreaker) :
    Reliability.CircuitBreaker :=
  calls.foldl (fun c k => (CheckMountPoint k.now k.cancel k.cmds k.sr c k.mountPoint).2.1) cb

/-- `ResetCircuitBreaker` on the wrapper simply resets its breaker. -/
def ResetCircuitBreaker (cb : Reliability.CircuitBreaker) : Reliability.CircuitBreaker :=
  cb.Reset

/-- The whitespace-delimited fields of a line as the spec phrases it
("parse up to four whitespace-delimited fields"), i.e. Go `strings.Fields`:
split on whitespace, dropping empty segments. Used only to compare the spec's
wording with the code's single-space split. -/
def specWhitespaceFields (line : String) : List String :=
  ((splitGoP (fun c => c.isWhitespace) line.data).map fun l => String.mk l).filter
    fun s => s ≠ ""

end System

namespace Metrics

/-- One `mount_point_status` sample emitted by `Collector.Collect`
(`metrics/collector.go`): the gauge value and its label values. -/
structure StatusMetric where
  mountPoint : String
  value : ℚ
  target : String
  fsType : String
  options : String
  source : String
  errorMsg : String
deriving DecidableEq, Repr

/-- The per-mount-point loop of `Collector.Collect`. `i` numbers the loop
iterations; `times i`, `cancels i` and `cmdss i` describe the environment of
the `CheckMountPoint` call of iteration `i`; `healthy` is the running health
flag (initially 1, cleared to 0 by any erroneous result). Returns the probe
results in order, the emitted `mount_point_status` samples in order, the mount
points for which a `scrape_success_total` sample was emitted, the final value
of the `up` gauge, and the final breaker. -/
def collectGo (times : Nat → Int) (cancels : Nat → Nat → Bool)
    (cmdss : Nat → Nat → System.CmdOutcome) (sr : String → Bool) :
    Nat → Reliability.CircuitBreaker → Nat → List String →
    List System.FindmntResult × List StatusMetric × List String × Nat ×
      Reliability.CircuitBreaker
  | _, cb, healthy, [] => ([], [], [], healthy, cb)
  | i, cb, healthy, mp :: rest =>
    let out := System.CheckMountPoint (times i) (cancels i) (cmdss i) sr cb mp
    let r := out.1
    let healthy1 := if r.error.isSome then 0 else healthy
    let value : ℚ :=
      if r.error.isSome then 0
      else
        match r.status with
        | .mounted => 1
        | .notMounted => 0
        | .unknown => 0
    let errorMsg : String :=
      match r.error with
      | some e => e
      | none =>
        match r.status with
        | .unknown => "unknown status"
        | _ => ""
    let sm : StatusMetric :=
      { mountPoint := mp, value := value, target := r.target, fsType := r.fsType
        options := r.options, source := r.source, errorMsg := errorMsg }
    let tail := collectGo times cancels cmdss sr (i + 1) out.2.1 healthy1 rest
    (r :: tail.1, sm :: tail.2.1,
      (if r.error.isNone then [mp] else []) ++ tail.2.2.1, tail.2.2.2.1, tail.2.2.2.2)

/-- `Collector.Collect`: walk the configured mount points in order with the
health flag initialized to 1, then emit the `up` gauge with the final flag. -/
def Collect (times : Nat → Int) (cancels : Nat → Nat → Bool)
    (cmdss : Nat → Nat → System.CmdOutcome) (sr : String → Bool)
    (cb : Reliability.CircuitBreaker) (mountPoints : List String) :
    List System.FindmntResult × List StatusMetric × List String × Nat ×
      Reliability.CircuitBreaker :=
  collectGo times cancels cmdss sr 0 cb 1 mountPoints

end Metrics


/-! ## C3 -/

/-- Folding `init ++ [q]` failing `Execute` calls over a `Closed` breaker whose
failure budget is exactly exhausted by them leaves the breaker `Open` with the
counter at the threshold and the last element's instant recorded. -/
theorem execFailSeq_opens (init : List (Int × String)) (q : Int × String) :
    ∀ cb : Reliability.CircuitBreaker,
      cb.state = .stateClosed →
      cb.failures + (init.length + 1) = cb.maxFailures →
      Reliability.execFailSeq (init ++ [q]) cb =
        { cb with state := .stateOpen, failures := cb.maxFailures, lastFailTime := q.1 } := by
  induction init with
  | nil =>
    intro cb hst hcount
    simp only [List.length_nil, Nat.zero_add] at hcount
    have hstep : (cb.Execute q.1 () fun _ => (some q.2, ())).2.2 =
        { cb with state := .stateOpen, failures := cb.failures + 1, lastFailTime := q.1 } := by
      simp [Reliability.CircuitBreaker.Execute, Reliability.CircuitBreaker.allowRequest, hst,
        Reliability.CircuitBreaker.onFailure, Reliability.CircuitBreaker.setState,
        show cb.maxFailures ≤ cb.failures + 1 by omega]
    simp only [List.nil_append, Reliability.execFailSeq, List.foldl_cons, List.foldl_nil, hstep]
    simp [← hcount]
  | cons p rest ih =>
    intro cb hst hcount
    simp only [List.length_cons] at hcount
    have hstep : (cb.Execute p.1 () fun _ => (some p.2, ())).2.2 =
        { cb with failures := cb.failures + 1, lastFailTime := p.1 } := by
      simp [Reliability.CircuitBreaker.Execute, Reliability.CircuitBreaker.allowRequest, hst,
        Reliability.CircuitBreaker.onFailure, show ¬ cb.maxFailures ≤ cb.failures + 1 by omega]
    simp only [List.cons_append, Reliability.execFailSeq, List.foldl_cons, hstep]
    have hnext := ih { cb with failures := cb.failures + 1, lastFailTime := p.1 }
      (by simp [hst]) (by simp; omega)
    simpa only [Reliability.execFailSeq] using hnext

/-- C3: from a fresh `Closed` breaker with threshold `N = init.length + 1`,
that many consecutive failing `Execute` calls leave `IsOpen() = true` with the
counter at `N`, and any further `Execute` issued before `resetTimeout` has
elapsed since the last failure returns the distinct circuit-open error without
invoking the operation and without touching breaker state, counters or
timestamps. -/
theorem claim_C3_threshold_opens_then_rejects (name : String) (t0 T : Int)
    (init : List (Int × String)) (q : Int × String) :
    (let cb0 : Reliability.CircuitBreaker :=
      { name := name, maxFailures := init.length + 1, resetTimeout := T,
        state := .stateClosed, failures := 0, lastFailTime := t0 }
    let cb1 := Reliability.execFailSeq (init ++ [q]) cb0
    cb1.IsOpen = true ∧ cb1.failures = init.length + 1 ∧
      ∀ t : Int, t - cb1.lastFailTime < T →
        ∀ (σ : Type) (s : σ) (fn : σ → Option String × σ),
          cb1.Execute t s fn = (some "circuit breaker is open", s, cb1)) := by
  intro cb0 cb1
  have hrun :
      cb1 = { cb0 with
        state := .stateOpen, failures := cb0.maxFailures, lastFailTime := q.1 } :=
    execFailSeq_opens init q cb0 rfl (by simp)
  refine ⟨?_, ?_, ?_⟩
  · rw [hrun]; rfl
  · rw [hrun]
  · intro t ht σ s fn
    rw [hrun] at ht ⊢
    simp only [Reliability.CircuitBreaker.Execute, Reliability.CircuitBreaker.allowRequest]
    rw [if_neg (by simp only [decide_eq_true_eq]; simp at ht ⊢; omega)]

/-- Witness for C3 with threshold 2, failures at instants 0 and 5, and a
rejected call at instant 50 < 5 + 100. -/
theorem claim_C3_witness :
    (let cb0 : Reliability.CircuitBreaker :=
      { name := "findmnt-circuit-breaker", maxFailures := 2, resetTimeout := 100,
        state := .stateClosed, failures := 0, lastFailTime := 0 }
    let cb1 := Reliability.execFailSeq [(0, "e1"), (5, "e2")] cb0
    cb1.IsOpen = true ∧ cb1.failures = 2 ∧
      cb1.Execute 50 (7 : Nat) (fun n => (none, n + 1)) =
        (some "circuit breaker is open", 7, cb1)) := by
  have h := claim_C3_threshold_opens_then_rejects "findmnt-circuit-breaker" 0 100
    [(0, "e1")] (5, "e2")
  exact ⟨h.1, h.2.1, h.2.2 50 (by decide) Nat 7 _⟩

/-! ## C2 -/

/-- One `CheckMountPoint` call against an `Open` breaker: status `Unknown`,
the circuit-open error, no findmnt spawn, breaker untouched. -/
theorem checkMountPoint_open (now : Int) (cancel : Nat → Bool)
    (cmds : Nat → System.CmdOutcome) (sr : String → Bool)
    (cb : Reliability.CircuitBreaker) (mp : String) (h : cb.state = .stateOpen) :
    System.CheckMountPoint now cancel cmds sr cb mp =
      ({ mountPoint := mp, status := .unknown,
         error := some System.circuitOpenResultMsg }, cb, 0) := by
  simp [System.CheckMountPoint, Reliability.CircuitBreaker.IsOpen,
    Reliability.CircuitBreaker.stateIsOpen, h]

/-- Any sequence of `CheckMountPoint` calls leaves an `Open` breaker untouched. -/
theorem runChecks_open (calls : List System.CheckCall) :
    ∀ cb : Reliability.CircuitBreaker, cb.state = .stateOpen →
      System.runChecks calls cb = cb := by
  induction calls with
  | nil => intro cb _; rfl
  | cons k rest ih =>
    intro cb h
    simp only [System.runChecks, List.foldl_cons]
    rw [show (System.CheckMountPoint k.now k.cancel k.cmds k.sr cb k.mountPoint).2.1 = cb by
      rw [checkMountPoint_open k.now k.cancel k.cmds k.sr cb k.mountPoint h]]
    exact ih cb h

/-- C2: while the wrapper's breaker is `Open`, every `CheckMountPoint` call —
at any instant, however much time has elapsed — returns status `Unknown` with
the circuit-open error, performs no findmnt spawn and leaves the breaker
untouched; hence no sequence of `CheckMountPoint` calls ever leaves `Open`,
while `ResetCircuitBreaker` does force `Closed`. -/
theorem claim_C2_open_breaker_blocks_checks (now : Int) (cancel : Nat → Bool)
    (cmds : Nat → System.CmdOutcome) (sr : String → Bool)
    (cb : Reliability.CircuitBreaker) (mp : String) (h : cb.state = .stateOpen) :
    System.CheckMountPoint now cancel cmds sr cb mp =
      ({ mountPoint := mp, status := .unknown,
         error := some System.circuitOpenResultMsg }, cb, 0) ∧
    (∀ calls : List System.CheckCall, System.runChecks calls cb = cb) ∧
    (System.ResetCircuitBreaker cb).state = .stateClosed := by
  refine ⟨checkMountPoint_open now cancel cmds sr cb mp h, fun calls => runChecks_open calls cb h, ?_⟩
  simp [System.ResetCircuitBreaker, Reliability.CircuitBreaker.Reset,
    Reliability.CircuitBreaker.setState, h]

/-- Witness for C2 on a concrete `Open` breaker, long after the reset timeout. -/
theorem claim_C2_witness :
    (let cbOpen : Reliability.CircuitBreaker :=
      { name := "findmnt-circuit-breaker", maxFailures := 5, resetTimeout := 50,
        state := .stateOpen, failures := 5, lastFailTime := 0 }
    System.CheckMountPoint 1000000 (fun _ => false) (fun _ => .success "/mnt ext4")
        (fun _ => true) cbOpen "/mnt" =
      ({ mountPoint := "/mnt", status := .unknown,
         error := some System.circuitOpenResultMsg }, cbOpen, 0) ∧
    System.runChecks
        [⟨500000, fun _ => false, fun _ => .success "/mnt ext4", fun _ => true, "/mnt"⟩] cbOpen =
      cbOpen ∧
    (System.ResetCircuitBreaker cbOpen).state = .stateClosed) := by
  have h := claim_C2_open_breaker_blocks_checks 1000000 (fun _ => false)
    (fun _ => .success "/mnt ext4") (fun _ => true)
    { name := "findmnt-circuit-breaker", maxFailures := 5, resetTimeout := 50,
      state := .stateOpen, failures := 5, lastFailTime := 0 } "/mnt" rfl
  exact ⟨h.1, h.2.1 _, h.2.2⟩

end MountExporter



namespace MountExporter

/-! ## Helper lemmas -/

/-- A breaker that is not `Open` always allows the request. -/
theorem allowRequest_of_ne_open (cb : Reliability.CircuitBreaker) (now : Int)
    (h : cb.state ≠ .stateOpen) : cb.allowRequest now = true := by
  unfold Reliability.CircuitBreaker.allowRequest
  cases hs : cb.state
  · rfl
  · rfl
  · exact absurd hs h

/-- `IsOpen` is false exactly off the `Open` state. -/
theorem isOpen_eq_false (cb : Reliability.CircuitBreaker)
    (h : cb.state ≠ .stateOpen) : cb.IsOpen = false := by
  unfold Reliability.CircuitBreaker.IsOpen Reliability.CircuitBreaker.stateIsOpen
  cases hs : cb.state
  · rfl
  · rfl
  · exact absurd hs h

/-! ## C1 -/

/-- C1: with `maxFailures = 1` and `resetTimeout = 50`, one failing `Execute`
at instant 0 opens the breaker; the next `Execute` at instant 100 (so `Open`
has persisted for 100 ≥ 50) invokes a succeeding operation, after which the
breaker is `HalfOpen` with zero failures — not `Closed` as the specification
(and the repository's own `TestCircuitBreaker_ResetTimeout`) require. -/
theorem claim_C1_open_success_becomes_halfOpen :
    (let cb0 : Reliability.CircuitBreaker :=
      { maxFailures := 1, resetTimeout := 50, state := .stateClosed, failures := 0,
        lastFailTime := 0 }
    let cb1 := (cb0.Execute 0 () fun _ => (some "probe failed", ())).2.2
    let cb2 := (cb1.Execute 100 () fun _ => ((none : Option String), ())).2.2
    cb1.state = .stateOpen ∧ (50 : Int) ≤ 100 - cb1.lastFailTime ∧
      cb2.state = .stateHalfOpen ∧ cb2.failures = 0 ∧ cb2.state ≠ .stateClosed) := by
  decide

/-! ## C5 -/

/-- C5: for the exponential strategy and any attempt ≥ 1, the base delay is
`min (initialDelay * multiplier ^ (attempt - 1)) maxDelay`. -/
theorem claim_C5_exponential_delay (cfg : Reliability.RetryConfig) (attempt : Nat)
    (hs : cfg.strategy = .exponential) (ha : 1 ≤ attempt) :
    Reliability.calculateDelay cfg attempt =
      min (cfg.initialDelay * cfg.multiplier ^ (attempt - 1)) cfg.maxDelay := by
  have h1 : 1 ≤ attempt := ha
  simp only [Reliability.calculateDelay, hs]
  rcases le_or_lt (cfg.initialDelay * cfg.multiplier ^ (attempt - 1)) cfg.maxDelay with h | h
  · rw [if_neg (not_lt.mpr h), min_eq_left h]
  · rw [if_pos h, min_eq_right h.le]

/-- Witness for C5 at `initialDelay = 100`, `multiplier = 2`, `maxDelay = 30000`,
`attempt = 3`. -/
theorem claim_C5_witness :
    Reliability.calculateDelay
        { maxAttempts := 3, initialDelay := 100, maxDelay := 30000, multiplier := 2,
          strategy := .exponential, shouldRetry := fun _ => true } 3 =
      min ((100 : ℚ) * 2 ^ (3 - 1)) 30000 :=
  claim_C5_exponential_delay _ 3 rfl (by norm_num)

/-! ## C7 -/

/-- C7: when every invocation of the operation fails with an error the
retryability predicate rejects, `Do` performs exactly one invocation and no
backoff wait, and returns the exhaustion error wrapping that first failure. -/
theorem claim_C7_nonretryable_single_attempt {σ : Type} (cfg : Reliability.RetryConfig)
    (cancel : Nat → Bool) (fn : Nat → σ → Option String × σ) (s : σ)
    (hM : 1 ≤ cfg.maxAttempts)
    (hfail : ∀ i t, ∃ e t1, fn i t = (some e, t1) ∧ cfg.shouldRetry e = false) :
    ∃ e s1, fn 0 s = (some e, s1) ∧
      Reliability.Do cfg cancel fn s =
        (some (Reliability.exhaustedMsg cfg.maxAttempts (some e)), s1, 1, 0) := by
  obtain ⟨e, s1, hf, hsr⟩ := hfail 0 s
  refine ⟨e, s1, hf, ?_⟩
  unfold Reliability.Do
  obtain ⟨m, hm⟩ : ∃ m, cfg.maxAttempts = m + 1 := ⟨cfg.maxAttempts - 1, by omega⟩
  rw [hm]
  simp [Reliability.doGo, hf, hsr]

/-- Witness for C7: a constantly failing non-retryable operation under
`maxAttempts = 3` runs exactly once. -/
theorem claim_C7_witness :
    ∃ e s1,
      (fun (_ : Nat) (t : Nat) => ((some "permanent" : Option String), t + 1)) 0 0 =
        (some e, s1) ∧
      Reliability.Do
          { maxAttempts := 3, initialDelay := 100, maxDelay := 30000, multiplier := 2,
            strategy := .exponential, shouldRetry := fun _ => false } (fun _ => false)
          (fun _ t => (some "permanent", t + 1)) 0 =
        (some (Reliability.exhaustedMsg 3 (some e)), s1, 1, 0) :=
  claim_C7_nonretryable_single_attempt _ _ _ _ (by norm_num)
    (fun _ t => ⟨"permanent", t + 1, rfl, rfl⟩)


/-! ## C8 -/

/-- If the very first invocation of the retried operation returns nil, the
retry loop stops at once with one invocation and no wait. -/
theorem doGo_first_none {σ : Type} (sr : String → Bool) (M : Nat) (cancel : Nat → Bool)
    (fn : Nat → σ → Option String × σ) (fuel : Nat) (s s1 : σ) (lastErr : Option String)
    (h : fn 0 s = (none, s1)) :
    Reliability.doGo sr M cancel fn 0 (fuel + 1) s lastErr = (none, s1, 1, 0) := by
  simp [Reliability.doGo, h]

/-- A `CheckMountPoint` call against a non-`Open` breaker whose first command
outcome classifies as a success: the classified result is returned, the breaker
records one success, and exactly one findmnt spawn happens. -/
theorem checkMountPoint_first_success (now : Int) (cancel : Nat → Bool)
    (cmds : Nat → System.CmdOutcome) (sr : String → Bool)
    (cb : Reliability.CircuitBreaker) (mp : String) (r1 : System.FindmntResult)
    (hcb : cb.state ≠ .stateOpen)
    (hatt : System.findmntAttempt (cmds 0) { mountPoint := mp, status := .unknown } =
      (none, r1)) :
    System.CheckMountPoint now cancel cmds sr cb mp = (r1, cb.onSuccess now, 1) := by
  have hdo : System.executeFindmnt cancel cmds sr { mountPoint := mp, status := .unknown } =
      (none, r1, 1, 0) := by
    unfold System.executeFindmnt Reliability.Do
    exact doGo_first_none _ _ _ _ 2 _ _ _ hatt
  simp only [System.CheckMountPoint, isOpen_eq_false cb hcb, Bool.false_eq_true, if_false,
    Reliability.CircuitBreaker.Execute, allowRequest_of_ne_open cb now hcb, if_true, hdo]

/-- Every success recording leaves the failure counter at zero. -/
theorem onSuccess_failures (cb : Reliability.CircuitBreaker) (now : Int) :
    (cb.onSuccess now).failures = 0 := by
  obtain ⟨nm, mf, rt, st, f, lt⟩ := cb
  cases st <;>
    simp only [Reliability.CircuitBreaker.onSuccess, Reliability.CircuitBreaker.setState] <;>
    split <;> rfl

/-- C8: a `CheckMountPoint` whose findmnt spawn exits with the "target not
found" exit code 1 yields `Status = NotMounted` and `Error = nil`, records a
breaker success (the counter ends at 0, so it is certainly not incremented),
and performs exactly one spawn — no retry. -/
theorem claim_C8_not_found_is_success (now : Int) (cancel : Nat → Bool)
    (cmds : Nat → System.CmdOutcome) (sr : String → Bool)
    (cb : Reliability.CircuitBreaker) (mp : String)
    (hcb : cb.state ≠ .stateOpen) (hcmd : cmds 0 = .exitError 1) :
    System.CheckMountPoint now cancel cmds sr cb mp =
      ({ mountPoint := mp, status := .notMounted }, cb.onSuccess now, 1) ∧
    (cb.onSuccess now).failures = 0 := by
  refine ⟨?_, onSuccess_failures cb now⟩
  refine checkMountPoint_first_success now cancel cmds sr cb mp _ hcb ?_
  rw [hcmd]
  rfl

/-- Witness for C8: a closed breaker with 2 accumulated failures, command exit
code 1. -/
theorem claim_C8_witness :
    System.CheckMountPoint 1000 (fun _ => false) (fun _ => .exitError 1) (fun _ => true)
        { name := "findmnt-circuit-breaker", maxFailures := 5, resetTimeout := 50,
          state := .stateClosed, failures := 2, lastFailTime := 0 } "/data" =
      ({ mountPoint := "/data", status := .notMounted },
        Reliability.CircuitBreaker.onSuccess
          { name := "findmnt-circuit-breaker", maxFailures := 5, resetTimeout := 50,
            state := .stateClosed, failures := 2, lastFailTime := 0 } 1000, 1) ∧
    (Reliability.CircuitBreaker.onSuccess
        { name := "findmnt-circuit-breaker", maxFailures := 5, resetTimeout := 50,
          state := .stateClosed, failures := 2, lastFailTime := 0 } 1000).failures = 0 :=
  claim_C8_not_found_is_success 1000 (fun _ => false) (fun _ => .exitError 1) (fun _ => true)
    _ "/data" (by decide) rfl

/-! ## C9 -/

/-- `splitGoP` never produces the empty list. -/
theorem splitGoP_ne_nil (p : Char → Bool) (l : List Char) : System.splitGoP p l ≠ [] := by
  cases l with
  | nil => simp [System.splitGoP]
  | cons c rest =>
    unfold System.splitGoP
    split
    · simp
    · split <;> simp

/-- Go `strings.Split` never returns an empty slice. -/
theorem splitOnChar_ne_nil (c : Char) (s : String) : System.splitOnChar c s ≠ [] := by
  unfold System.splitOnChar
  simp [splitGoP_ne_nil]

/-- C9 counterexample: on the line `"/mnt  ext4 rw /dev/sda1"` (two spaces
after the target) the whitespace-delimited fields are
`["/mnt", "ext4", "rw", "/dev/sda1"]`, so the claim predicts
`FSType = "ext4"`, `Options = "rw"`, `Source = "/dev/sda1"`; the code splits on
single spaces, producing an empty second field, and records `FSType = ""`,
`Options = "ext4"`, `Source = "rw /dev/sda1"`. -/
theorem claim_C9_counterexample :
    (let out := System.CheckMountPoint 0 (fun _ => false)
        (fun _ => .success "/mnt  ext4 rw /dev/sda1") (fun _ => true)
        { name := "", maxFailures := 5, resetTimeout := 50, state := .stateClosed,
          failures := 0, lastFailTime := 0 } "/mnt"
    System.specWhitespaceFields "/mnt  ext4 rw /dev/sda1" =
        ["/mnt", "ext4", "rw", "/dev/sda1"] ∧
      out.1.status = .mounted ∧ out.1.target = "/mnt" ∧ out.1.fsType = "" ∧
      out.1.options = "ext4" ∧ out.1.source = "rw /dev/sda1" ∧ out.1.fsType ≠ "ext4") := by
  decide

/-- C9 (amended): when the findmnt spawn exits zero with a first output line
that is non-blank after trimming, `CheckMountPoint` reports `Mounted` with nil
error and no retry, and fills (Target, FSType, Options, Source) from the
trimmed first line split on single space characters — consecutive spaces yield
empty fields and tabs are not delimiters; fields beyond the fourth are joined
back into Source with single spaces; fewer than four fields leave the
remaining attributes empty. -/
theorem claim_C9_single_space_fields (now : Int) (cancel : Nat → Bool)
    (cmds : Nat → System.CmdOutcome) (sr : String → Bool)
    (cb : Reliability.CircuitBreaker) (mp : String) (out : String) (fields : List String)
    (hcb : cb.state ≠ .stateOpen)
    (hcmd : cmds 0 = .success out)
    (hout : ¬ System.trimSpace out = "")
    (hline : ¬ System.trimSpace ((System.splitOnChar '\n' out).headD "") = "")
    (hfields : fields =
      System.splitOnChar ' ' (System.trimSpace ((System.splitOnChar '\n' out).headD ""))) :
    System.CheckMountPoint now cancel cmds sr cb mp =
      ({ mountPoint := mp, status := .mounted, target := fields.headD "",
         fsType := if 2 ≤ fields.length then fields.getD 1 "" else "",
         options := if 3 ≤ fields.length then fields.getD 2 "" else "",
         source := if 4 ≤ fields.length then " ".intercalate (fields.drop 3) else "",
         error := none }, cb.onSuccess now, 1) := by
  subst hfields
  refine checkMountPoint_first_success now cancel cmds sr cb mp _ hcb ?_
  rw [hcmd]
  simp only [System.findmntAttempt]
  rw [if_neg hout, if_neg hline]
  rcases hfe : System.splitOnChar ' '
      (System.trimSpace ((System.splitOnChar '\n' out).headD "")) with _ | ⟨f0, rest⟩
  · exact absurd hfe (splitOnChar_ne_nil _ _)
  · split_ifs <;> rfl

/-- Witness for C9 on the single-space line
`"/mnt ext4 rw,relatime /dev/sda1 extra"` followed by a second output line. -/
theorem claim_C9_witness :
    System.CheckMountPoint 0 (fun _ => false)
        (fun _ => .success "/mnt ext4 rw,relatime /dev/sda1 extra\nsecond") (fun _ => true)
        { name := "", maxFailures := 5, resetTimeout := 50, state := .stateClosed,
          failures := 0, lastFailTime := 0 } "/mnt" =
      ({ mountPoint := "/mnt", status := .mounted, target := "/mnt", fsType := "ext4",
         options := "rw,relatime", source := "/dev/sda1 extra", error := none },
        Reliability.CircuitBreaker.onSuccess
          { name := "", maxFailures := 5, resetTimeout := 50, state := .stateClosed,
            failures := 0, lastFailTime := 0 } 0, 1) := by
  have h := claim_C9_single_space_fields 0 (fun _ => false)
      (fun _ => .success "/mnt ext4 rw,relatime /dev/sda1 extra\nsecond") (fun _ => true)
      { name := "", maxFailures := 5, resetTimeout := 50, state := .stateClosed,
        failures := 0, lastFailTime := 0 } "/mnt"
      "/mnt ext4 rw,relatime /dev/sda1 extra\nsecond"
      ["/mnt", "ext4", "rw,relatime", "/dev/sda1", "extra"]
      (by decide) rfl (by decide) (by decide) (by decide)
  exact h


/-! ## C4 -/

/-- C4 counterexample: `Reset` on an `Open` breaker (reached by one failing
`Execute` with threshold 1) produces the state change Open→Closed, which is
not in the claim's list of legal transitions. -/
theorem claim_C4_counterexample :
    (let cb0 : Reliability.CircuitBreaker :=
      { name := "", maxFailures := 1, resetTimeout := 50, state := .stateClosed,
        failures := 0, lastFailTime := 0 }
    let cb1 := Reliability.applyOp cb0 (.exec 0 (some "probe failed"))
    let cb2 := Reliability.applyOp cb1 .reset
    cb1.state = .stateOpen ∧ cb2.state = .stateClosed ∧
      Reliability.allowedTransition .stateOpen .stateClosed = false) := by
  decide

/-- C4 (amended): every state change produced by an `Execute` call is one of
Closed→Open, Open→HalfOpen, HalfOpen→Closed, HalfOpen→Open; a `Reset` call
always ends `Closed` with the counter zeroed (so a `Reset` issued while `Open`
additionally produces the Open→Closed change, which `Execute` never does); a
state change entering `Open` only happens on a failing operation and records
its instant in the last-failure timestamp; a state change entering `Closed`
always leaves the failure counter at zero. -/
theorem claim_C4_transitions_amended (cb : Reliability.CircuitBreaker) (now : Int)
    (fnErr : Option String) :
    (((Reliability.applyOp cb (.exec now fnErr)).state ≠ cb.state →
        Reliability.allowedTransition cb.state
          (Reliability.applyOp cb (.exec now fnErr)).state = true) ∧
      ((Reliability.applyOp cb (.exec now fnErr)).state = .stateOpen →
        cb.state ≠ .stateOpen →
        (Reliability.applyOp cb (.exec now fnErr)).lastFailTime = now ∧
          fnErr.isSome = true) ∧
      ((Reliability.applyOp cb (.exec now fnErr)).state = .stateClosed →
        cb.state ≠ .stateClosed →
        (Reliability.applyOp cb (.exec now fnErr)).failures = 0)) ∧
    ((Reliability.applyOp cb .reset).state = .stateClosed ∧
      (Reliability.applyOp cb .reset).failures = 0) := by
  obtain ⟨nm, mf, rt, st, f, lt⟩ := cb
  rcases fnErr with _ | e <;> cases st <;>
    simp [Reliability.applyOp, Reliability.CircuitBreaker.Execute,
      Reliability.CircuitBreaker.allowRequest, Reliability.CircuitBreaker.onSuccess,
      Reliability.CircuitBreaker.onFailure, Reliability.CircuitBreaker.setState,
      Reliability.CircuitBreaker.Reset, Reliability.allowedTransition] <;>
    split_ifs <;>
    simp_all [Reliability.allowedTransition]

/-- Witness for C4: a failing `Execute` on a fresh threshold-1 breaker makes
the Closed→Open change with the instant recorded, and a `Reset` ends Closed
with a zero counter. -/
theorem claim_C4_witness :
    Reliability.allowedTransition Reliability.State.stateClosed
        (Reliability.applyOp
          { name := "", maxFailures := 1, resetTimeout := 50,
            state := .stateClosed, failures := 0, lastFailTime := 0 }
          (.exec 5 (some "probe failed"))).state = true ∧
    (Reliability.applyOp
        { name := "", maxFailures := 1, resetTimeout := 50,
          state := .stateClosed, failures := 0, lastFailTime := 0 }
        (.exec 5 (some "probe failed"))).lastFailTime = 5 ∧
    (Reliability.applyOp
        { name := "", maxFailures := 1, resetTimeout := 50,
          state := .stateClosed, failures := 0, lastFailTime := 0 } .reset).state =
      .stateClosed := by
  have h := claim_C4_transitions_amended
    { name := "", maxFailures := 1, resetTimeout := 50,
      state := .stateClosed, failures := 0, lastFailTime := 0 } 5 (some "probe failed")
  exact ⟨h.1.1 (by decide), (h.1.2.1 (by decide) (by decide)).1, h.2.1⟩

/-! ## C6 -/

/-- A run of the retry loop whose next `j` invocations fail retryably and whose
invocation `j` (0-based, counted from loop counter `a`) succeeds, with no
cancellation, performs exactly `j + 1` invocations and waits before every
iteration with positive loop counter. -/
theorem doGo_success_run (sr : String → Bool) (M : Nat) (cancel : Nat → Bool)
    (errs : Nat → Option String) (hc : ∀ i, cancel i = false) :
    ∀ (j a fuel : Nat) (lastErr : Option String),
      j < fuel →
      (∀ i, i < j → ∃ e, errs (a + i) = some e ∧ sr e = true) →
      errs (a + j) = none →
      Reliability.doGo sr M cancel (fun i (_ : Unit) => (errs i, ())) a fuel () lastErr =
        (none, (), j + 1, j + (if 0 < a then 1 else 0)) := by
  intro j
  induction j with
  | zero =>
    intro a fuel lastErr hlt _ hnone
    obtain ⟨fl, rfl⟩ : ∃ fl, fuel = fl + 1 := ⟨fuel - 1, by omega⟩
    rw [Nat.add_zero] at hnone
    simp [Reliability.doGo, hc, hnone]
  | succ j ih =>
    intro a fuel lastErr hlt hfail hnone
    obtain ⟨fl, rfl⟩ : ∃ fl, fuel = fl + 1 := ⟨fuel - 1, by omega⟩
    obtain ⟨e, he, hsr⟩ := hfail 0 (by omega)
    rw [Nat.add_zero] at he
    have hrec := ih (a + 1) fl (some e) (by omega)
      (fun i hi => by
        have h2 := hfail (i + 1) (by omega)
        rwa [show a + (i + 1) = a + 1 + i by omega] at h2)
      (by rw [show a + 1 + j = a + (j + 1) by omega]; exact hnone)
    simp [Reliability.doGo, hc, he, hsr, hrec, show fl ≠ 0 by omega]

/-- C6: an operation that fails retryably on its first `k - 1` invocations and
succeeds on invocation `k ≤ maxAttempts`, with the context never cancelled, is
invoked exactly `k` times by `Do`, which returns nil immediately after the
success, having performed exactly the `k - 1` backoff waits that preceded
re-invocations — none after. -/
theorem claim_C6_success_short_circuits (cfg : Reliability.RetryConfig)
    (cancel : Nat → Bool) (errs : Nat → Option String) (k : Nat)
    (hk1 : 1 ≤ k) (hk2 : k ≤ cfg.maxAttempts)
    (hc : ∀ i, cancel i = false)
    (hfail : ∀ i, i < k - 1 → ∃ e, errs i = some e ∧ cfg.shouldRetry e = true)
    (hsucc : errs (k - 1) = none) :
    Reliability.Do cfg cancel (fun i (_ : Unit) => (errs i, ())) () =
      (none, (), k, k - 1) := by
  have h := doGo_success_run cfg.shouldRetry cfg.maxAttempts cancel errs hc (k - 1) 0
    cfg.maxAttempts none (by omega)
    (fun i hi => by simpa using hfail i hi)
    (by simpa using hsucc)
  unfold Reliability.Do
  norm_num at h
  rwa [show k - 1 + 1 = k by omega] at h

/-- Witness for C6: one retryable timeout then a success under
`maxAttempts = 3` gives two invocations and one wait. -/
theorem claim_C6_witness :
    Reliability.Do
        { maxAttempts := 3, initialDelay := 100, maxDelay := 30000, multiplier := 2,
          strategy := .exponential, shouldRetry := fun _ => true } (fun _ => false)
        (fun i (_ : Unit) => (if i = 0 then some "timeout" else none, ())) () =
      (none, (), 2, 1) := by
  have h := claim_C6_success_short_circuits
    { maxAttempts := 3, initialDelay := 100, maxDelay := 30000, multiplier := 2,
      strategy := .exponential, shouldRetry := fun _ => true } (fun _ => false)
    (fun i => if i = 0 then some "timeout" else none) 2 (by norm_num) (by norm_num)
    (fun _ => rfl)
    (fun i hi => by
      have h0 : i = 0 := by omega
      subst h0
      exact ⟨"timeout", rfl, rfl⟩)
    rfl
  exact h

/-! ## C10 -/

/-- Structure of one `Collect` walk: one result and one status sample per
configured mount point, and the final health flag is 1 exactly when it started
at 1 and no result carries an error. -/
theorem collectGo_spec (times : Nat → Int) (cancels : Nat → Nat → Bool)
    (cmdss : Nat → Nat → System.CmdOutcome) (sr : String → Bool) :
    ∀ (mps : List String) (i : Nat) (cb : Reliability.CircuitBreaker) (healthy : Nat),
      (Metrics.collectGo times cancels cmdss sr i cb healthy mps).1.length = mps.length ∧
      (Metrics.collectGo times cancels cmdss sr i cb healthy mps).2.1.length = mps.length ∧
      ((Metrics.collectGo times cancels cmdss sr i cb healthy mps).2.2.2.1 = 1 ↔
        (healthy = 1 ∧
          ∀ r ∈ (Metrics.collectGo times cancels cmdss sr i cb healthy mps).1,
            r.error = none)) := by
  intro mps
  induction mps with
  | nil =>
    intro i cb healthy
    simp [Metrics.collectGo]
  | cons mp rest ih =>
    intro i cb healthy
    obtain ⟨ihl1, ihl2, ihiff⟩ := ih (i + 1)
      (System.CheckMountPoint (times i) (cancels i) (cmdss i) sr cb mp).2.1
      (if (System.CheckMountPoint (times i) (cancels i) (cmdss i) sr cb mp).1.error.isSome
        then 0 else healthy)
    refine ⟨?_, ?_, ?_⟩
    · simp [Metrics.collectGo, ihl1]
    · simp [Metrics.collectGo, ihl2]
    · simp only [Metrics.collectGo]
      rw [ihiff]
      cases herr : (System.CheckMountPoint (times i) (cancels i) (cmdss i) sr cb mp).1.error with
      | none => simp [herr]
      | some e => simp [herr]

/-- C10: one `Collect` cycle reports `up = 1` exactly when every configured
mount point's check produced no error; it produces one result and one status
sample per mount point, in order, whatever errors occur along the way; and an
empty mount-point list yields `up = 1` with zero per-target entries. -/
theorem claim_C10_collect_health (times : Nat → Int) (cancels : Nat → Nat → Bool)
    (cmdss : Nat → Nat → System.CmdOutcome) (sr : String → Bool)
    (cb : Reliability.CircuitBreaker) (mountPoints : List String) :
    ((Metrics.Collect times cancels cmdss sr cb mountPoints).2.2.2.1 = 1 ↔
      ∀ r ∈ (Metrics.Collect times cancels cmdss sr cb mountPoints).1, r.error = none) ∧
    (Metrics.Collect times cancels cmdss sr cb mountPoints).1.length =
      mountPoints.length ∧
    (Metrics.Collect times cancels cmdss sr cb mountPoints).2.1.length =
      mountPoints.length ∧
    (mountPoints = [] →
      Metrics.Collect times cancels cmdss sr cb mountPoints = ([], [], [], 1, cb)) := by
  obtain ⟨h1, h2, h3⟩ := collectGo_spec times cancels cmdss sr mountPoints 0 cb 1
  refine ⟨by simpa [Metrics.Collect] using h3, h1, h2, ?_⟩
  intro h
  subst h
  rfl

/-- Witness for C10 at the empty mount-point list. -/
theorem claim_C10_witness :
    Metrics.Collect (fun _ => 0) (fun _ _ => false) (fun _ _ => .exitError 1) (fun _ => true)
        { name := "", maxFailures := 5, resetTimeout := 50, state := .stateClosed,
          failures := 0, lastFailTime := 0 } [] =
      ([], [], [], 1,
        { name := "", maxFailures := 5, resetTimeout := 50, state := .stateClosed,
          failures := 0, lastFailTime := 0 }) :=
  (claim_C10_collect_health (fun _ => 0) (fun _ _ => false) (fun _ _ => .exitError 1)
    (fun _ => true) _ []).2.2.2 rfl

end MountExporter
